import Mathlib

/-
Verification of the Raydium pool-listing pipeline (src/main.rs) against its
specification.  The Rust program drives a paginated HTTP listing to
exhaustion, loads an address-to-symbol lookup table, and writes the
accumulated records as one eight-column parquet file with a single row group.

The shallow embedding below models:
  - the JSON values seen by the loaders (serde_json::Value);
  - the decoded record types ApiPage / PageData / MintInfo / PoolInfoV3;
  - the pagination loop of all_pools as a fuel-indexed recursion that
    records the yielded batches, the requested page numbers, and how the
    stream ended (normal stop, propagated error, or fuel exhaustion --
    the last is a modelling artifact standing for a loop that has not
    terminated yet);
  - the column projection and file layout built by write_pools_parquet
    (schema, one chunk of eight typed columns, writer options);
  - load_token_map, where the Rust unwrap calls (which abort the process
    on a malformed element) are modelled as decode errors.

Network transport and local file I/O are oracles/abstracted: a fetch
function stands for the HTTP client, and the parquet writer is modelled by
the value it writes, not the byte stream.  64-bit floats are carried as
opaque bit patterns (structure F64), which is faithful because the program
never computes with price/tvl, it only passes them through.
-/

set_option autoImplicit false

namespace Raydium

/-- A JSON value, as decoded by serde_json (numbers carried as integers;
their value is never inspected by the code under verification). -/
inductive Json where
  | null
  | bool (b : Bool)
  | num (n : Int)
  | str (s : String)
  | arr (elems : List Json)
  | obj (fields : List (String × Json))

/-- Immutable indexing value["key"] of serde_json: field lookup on an
object, Null on a missing key or a non-object. -/
def Json.index (j : Json) (key : String) : Json :=
  match j with
  | .obj fields =>
    match fields.lookup key with
    | some v => v
    | none => .null
  | _ => .null

/-- Value::as_str of serde_json. -/
def Json.asStr : Json → Option String
  | .str s => some s
  | _ => none

/-- Value::as_array of serde_json. -/
def Json.asArray : Json → Option (List Json)
  | .arr elems => some elems
  | _ => none

/-- A 64-bit float carried as its raw bit pattern.  The pipeline never
computes with price/tvl (no rounding, no comparison), so pass-through of
the bits is a faithful model and keeps NaN payloads distinguishable. -/
structure F64 where
  bits : Nat
deriving DecidableEq, Repr

/-- MintInfo from src/main.rs: one side of a pool's pair.  Only address
is consumed by the encoder; the rest is carried through from the source. -/
structure MintInfo where
  chain_id : Nat
  address : String
  program_id : String
  logo_uri : String
  symbol : String
  name : String
  decimals : Nat
  tags : List String
  extensions : Json

/-- PoolInfoV3 from src/main.rs: one listed pool record. -/
structure PoolInfoV3 where
  id : String
  price : F64
  tvl : F64
  program_id : String
  mint_a : MintInfo
  mint_b : MintInfo

/-- PageData from src/main.rs: the inner payload of one page response. -/
structure PageData where
  data : List PoolInfoV3
  hasNextPage : Bool

/-- ApiPage from src/main.rs: the envelope of one page response. -/
structure ApiPage where
  success : Bool
  data : PageData

/-- The error taxonomy of the pipeline: transport-level failure,
body-decode failure, or a well-formed response reporting failure. -/
inductive PipelineError where
  | transport
  | decode (msg : String)
  | upstream (msg : String)
deriving DecidableEq, Repr

/-- Result of one HTTP round trip for a page, as seen after
send/error_for_status/json in all_pools. -/
inductive FetchResult where
  | transportErr
  | decodeErr
  | ok (page : ApiPage)

/-- How a run of the pagination loop ended. -/
inductive RunEnd where
  | stopped
  | failed (e : PipelineError)
  | fuelExhausted
deriving DecidableEq, Repr

/-- The token map built by load_token_map.  The Rust HashMap is modelled
as an association list where insert prepends; get finds the most recent
insertion, matching the overwrite semantics of HashMap::insert. -/
def TokenMap : Type := List (String × String)

/-- HashMap::get, observably: the most recently inserted value for the key. -/
def TokenMap.get : TokenMap → String → Option String
  | [], _ => none
  | (k, v) :: rest, key => if k = key then some v else TokenMap.get rest key

/-- HashMap::insert (overwrite): modelled by prepending, so that get sees
the latest write. -/
def TokenMap.insert (m : TokenMap) (k v : String) : TokenMap :=
  (k, v) :: m

/-- The pagination loop body of all_pools, starting at a given page
number, with fuel bounding the number of iterations (the Rust loop is
unbounded; fuelExhausted marks a run that was cut off, never a behavior
of the program).  Returns the yielded batches in order, the page numbers
requested in order, and how the loop ended.  Per iteration, in source
order: fetch the page (transport error, then decode error, propagated);
fail if the envelope reports success=false; stop before yielding if the
batch is empty; yield the batch; stop after yielding if hasNextPage is
false; otherwise increment the page counter by one and continue. -/
def allPoolsFrom (fetch : Nat → FetchResult) : Nat → Nat → List (List PoolInfoV3) × List Nat × RunEnd
  | _, 0 => ([], [], .fuelExhausted)
  | page, fuel + 1 =>
    match fetch page with
    | .transportErr => ([], [page], .failed .transport)
    | .decodeErr => ([], [page], .failed (.decode ("error decoding response body")))
    | .ok resp =>
      if resp.success = false then
        ([], [page], .failed (.upstream ("raydium returned success=false")))
      else
        let batch := resp.data.data
        if batch.isEmpty then
          ([], [page], .stopped)
        else if resp.data.hasNextPage = false then
          ([batch], [page], .stopped)
        else
          let rest := allPoolsFrom fetch (page + 1) fuel
          (batch :: rest.1, page :: rest.2.1, rest.2.2)

/-- all_pools from src/main.rs: the loop starts with page = 1. -/
def all_pools (fetch : Nat → FetchResult) (fuel : Nat) : List (List PoolInfoV3) × List Nat × RunEnd :=
  allPoolsFrom fetch 1 fuel

/-- Arrow2 DataType, restricted to the two types the schema uses. -/
inductive ParquetType where
  | utf8
  | float64
deriving DecidableEq, Repr

/-- Arrow2 Field: column name, type, nullability. -/
structure ParquetField where
  name : String
  dataType : ParquetType
  nullable : Bool
deriving DecidableEq, Repr

/-- A typed column: Utf8Array or Float64Array built from a slice. -/
inductive Col where
  | utf8 (vals : List String)
  | f64 (vals : List F64)
deriving DecidableEq, Repr

/-- Number of rows held by a column. -/
def Col.length : Col → Nat
  | .utf8 vals => vals.length
  | .f64 vals => vals.length

/-- One cell of a column: a string or a 64-bit float bit pattern. -/
inductive CellVal where
  | s (v : String)
  | f (v : F64)
deriving DecidableEq, Repr

/-- The cell of a column at a row index, when in range. -/
def Col.entry : Col → Nat → Option CellVal
  | .utf8 vals, i => (vals.get? i).map CellVal.s
  | .f64 vals, i => (vals.get? i).map CellVal.f

/-- Arrow2 parquet Encoding, restricted to the one used. -/
inductive ParquetEncoding where
  | plain
deriving DecidableEq, Repr

/-- Arrow2 CompressionOptions, restricted to the one used. -/
inductive ParquetCompression where
  | snappy
deriving DecidableEq, Repr

/-- Arrow2 parquet format Version. -/
inductive ParquetVersion where
  | v1
  | v2
deriving DecidableEq, Repr

/-- Arrow2 WriteOptions, as set in write_pools_parquet. -/
structure ParquetWriteOptions where
  write_statistics : Bool
  compression : ParquetCompression
  version : ParquetVersion
  data_pagesize_limit : Option Nat
deriving DecidableEq, Repr

/-- The value written by the parquet writer: the declared schema, the row
groups (each one chunk, a list of columns), the writer options, and the
per-column encodings handed to RowGroupIterator. -/
structure ParquetFile where
  schema : List ParquetField
  rowGroups : List (List Col)
  options : ParquetWriteOptions
  encodings : List (List ParquetEncoding)
deriving DecidableEq, Repr

/-- The first row group's column at the given position, when present. -/
def ParquetFile.colAt (pf : ParquetFile) (j : Nat) : Option Col :=
  match pf.rowGroups.head? with
  | none => none
  | some cols => cols.get? j

/-- The cell of the first row group at column j, row i, when present. -/
def ParquetFile.cell (pf : ParquetFile) (j i : Nat) : Option CellVal :=
  match pf.colAt j with
  | none => none
  | some c => c.entry i

/-- write_pools_parquet from src/main.rs, modelled by the file value it
writes.  The eight column slices are projected from the record list in
source order; the label columns look each mint address up in the token
map and fall back to the sentinel on a missing key (the Rust
map(as_str) is the identity on the value and is dropped).  The writer
receives the fixed schema, exactly one chunk in one row group, Plain
encoding per column, and the fixed write options.  Local file I/O is
outside the model; the column projection itself is total and cannot
fail. -/
def write_pools_parquet (all : List PoolInfoV3) (token_map : TokenMap) : ParquetFile :=
  let ids : List String := all.map (fun p => p.id)
  let progs : List String := all.map (fun p => p.program_id)
  let prices : List F64 := all.map (fun p => p.price)
  let tvls : List F64 := all.map (fun p => p.tvl)
  let coin_mints : List String := all.map (fun p => p.mint_a.address)
  let pc_mints : List String := all.map (fun p => p.mint_b.address)
  let symbols_a : List String :=
    all.map (fun p => (token_map.get p.mint_a.address).getD ("UNKNOWN"))
  let symbols_b : List String :=
    all.map (fun p => (token_map.get p.mint_b.address).getD ("UNKNOWN"))
  let schema : List ParquetField := [
    ⟨"id", ParquetType.utf8, false⟩,
    ⟨"program_id", ParquetType.utf8, false⟩,
    ⟨"price", ParquetType.float64, false⟩,
    ⟨"tvl", ParquetType.float64, false⟩,
    ⟨"coin_mint", ParquetType.utf8, false⟩,
    ⟨"pc_mint", ParquetType.utf8, false⟩,
    ⟨"symbol_a", ParquetType.utf8, false⟩,
    ⟨"symbol_b", ParquetType.utf8, false⟩]
  let chunk : List Col := [
    Col.utf8 ids,
    Col.utf8 progs,
    Col.f64 prices,
    Col.f64 tvls,
    Col.utf8 coin_mints,
    Col.utf8 pc_mints,
    Col.utf8 symbols_a,
    Col.utf8 symbols_b]
  let options : ParquetWriteOptions :=
    ⟨true, ParquetCompression.snappy, ParquetVersion.v2, some (1024 * 1024)⟩
  let encodings : List (List ParquetEncoding) :=
    (List.range schema.length).map (fun _ => [ParquetEncoding.plain])
  ⟨schema, [chunk], options, encodings⟩

/-- Element loop of load_token_map: for each token, extract address then
symbol as strings and insert into the map.  The Rust code calls unwrap
on each extraction; a missing field aborts the whole load (modelled as a
decode error), it is never skipped. -/
def insertTokens : TokenMap → List Json → Except PipelineError TokenMap
  | map, [] => .ok map
  | map, tok :: rest =>
    match (tok.index ("address")).asStr with
    | none => .error (.decode ("token element has no address string"))
    | some address =>
      match (tok.index ("symbol")).asStr with
      | none => .error (.decode ("token element has no symbol string"))
      | some symbol => insertTokens (map.insert address symbol) rest

/-- load_token_map from src/main.rs, applied to the decoded response
body (transport and body-level JSON decoding are upstream of this
value): extract the tokens array (unwrap), then fold the elements into
the map. -/
def load_token_map (resp : Json) : Except PipelineError TokenMap :=
  match (resp.index ("tokens")).asArray with
  | none => .error (.decode ("response has no tokens array"))
  | some toks => insertTokens [] toks

/-! Concrete test fixtures used to instantiate the theorems below. -/

/-- A sample mint for the A side of a pool. -/
def mintA1 : MintInfo :=
  ⟨101, "addrA", "progTok", "", "SOL", "Wrapped SOL", 9, [], Json.null⟩

/-- A sample mint for the B side of a pool. -/
def mintB1 : MintInfo :=
  ⟨101, "addrB", "progTok", "", "USDC", "USD Coin", 6, [], Json.null⟩

/-- A mint with the same address as mintA1 but different descriptive
fields (symbol, name, decimals, logo, tags). -/
def mintA1Alt : MintInfo :=
  ⟨101, "addrA", "progTok", "logo.png", "XYZ", "Other Name", 2, ["tag"], Json.bool true⟩

/-- A mint with the same address as mintB1 but different descriptive
fields. -/
def mintB1Alt : MintInfo :=
  ⟨101, "addrB", "progTok", "logo2.png", "QRS", "Yet Another", 0, [], Json.num 7⟩

/-- A sample pool record; price bits encode 1.0, tvl bits encode 100.0. -/
def pool1 : PoolInfoV3 :=
  ⟨"pool1", ⟨0x3FF0000000000000⟩, ⟨0x4059000000000000⟩, "progAmm", mintA1, mintB1⟩

/-- A pool sharing pool1's mint addresses but with different identifier,
numeric fields and descriptive mint fields. -/
def pool1Alt : PoolInfoV3 :=
  ⟨"other", ⟨0⟩, ⟨1⟩, "progAmm2", mintA1Alt, mintB1Alt⟩

/-- A pool with empty identifier and program identifier, a NaN price bit
pattern and a negative-zero tvl bit pattern: nothing rejects it. -/
def poolEmptyId : PoolInfoV3 :=
  ⟨"", ⟨0x7FF8000000000000⟩, ⟨0x8000000000000000⟩, "", mintA1, mintB1⟩

/-- A sample token map holding only the A-side address. -/
def tmEx : TokenMap := [("addrA", "SOL")]

/-- Fetch oracle: page 1 non-empty with hasNextPage=true, page 2 empty. -/
def fetchC3 : Nat → FetchResult := fun j =>
  if j = 1 then .ok ⟨true, ⟨[pool1], true⟩⟩ else .ok ⟨true, ⟨[], true⟩⟩

/-- Fetch oracle: page 1 non-empty with hasNextPage=true, page 2
non-empty with hasNextPage=false. -/
def fetchC4 : Nat → FetchResult := fun j =>
  if j = 1 then .ok ⟨true, ⟨[pool1], true⟩⟩ else .ok ⟨true, ⟨[pool1Alt], false⟩⟩

/-- Fetch oracle: page 1 fine, page 2 reports success=false. -/
def fetchC5 : Nat → FetchResult := fun j =>
  if j = 1 then .ok ⟨true, ⟨[pool1], true⟩⟩ else .ok ⟨false, ⟨[pool1Alt], true⟩⟩

/-- Fetch oracle: every page returns the unvalidated record and stops. -/
def fetchCex : Nat → FetchResult := fun _ => .ok ⟨true, ⟨[poolEmptyId], false⟩⟩

/-- A token element carrying an address but no symbol field. -/
def tokBad : Json := Json.obj [("address", Json.str "addr")]

/-- A lookup response whose only token element is missing its symbol. -/
def respBad : Json := Json.obj [("tokens", Json.arr [tokBad])]

/-! Helper lemmas about the pagination loop. -/

/-- Running the loop from page p over m consecutive good pages (decoded,
success=true, non-empty batch, hasNextPage=true) yields those m batches
and requests those m pages, then continues from page p + m with the
remaining fuel. -/
theorem allPoolsFrom_through (fetch : Nat → FetchResult) (bs : Nat → List PoolInfoV3) :
    ∀ (m fuel p : Nat),
      (∀ j, p ≤ j → j < p + m → fetch j = .ok ⟨true, ⟨bs j, true⟩⟩ ∧ bs j ≠ []) →
      allPoolsFrom fetch p (m + fuel) =
        ((List.range' p m).map bs ++ (allPoolsFrom fetch (p + m) fuel).1,
         List.range' p m ++ (allPoolsFrom fetch (p + m) fuel).2.1,
         (allPoolsFrom fetch (p + m) fuel).2.2)
  | 0, fuel, p, _ => by simp
  | m + 1, fuel, p, h => by
    have hp := h p (Nat.le_refl p) (by omega)
    have hcons : allPoolsFrom fetch p (m + 1 + fuel) =
        (bs p :: (allPoolsFrom fetch (p + 1) (m + fuel)).1,
         p :: (allPoolsFrom fetch (p + 1) (m + fuel)).2.1,
         (allPoolsFrom fetch (p + 1) (m + fuel)).2.2) := by
      have harith : m + 1 + fuel = (m + fuel) + 1 := by omega
      rw [harith]
      simp only [allPoolsFrom, hp.1]
      simp [List.isEmpty_eq_false.mpr hp.2]
    have ih := allPoolsFrom_through fetch bs m fuel (p + 1)
      (fun j hj1 hj2 => h j (by omega) (by omega))
    have harith2 : p + (m + 1) = p + 1 + m := by omega
    rw [hcons, ih, harith2]
    simp [List.range'_succ]

/-- If some element of the token list is missing its address string or
its symbol string, folding the list into the map fails, whatever the
accumulated map was when the loop reached the list. -/
theorem insertTokens_error_of_bad (toks : List Json) :
    ∀ map : TokenMap,
      (∃ tok ∈ toks,
        (tok.index ("address")).asStr = none ∨ (tok.index ("symbol")).asStr = none) →
      ∃ e, insertTokens map toks = .error e := by
  induction toks with
  | nil =>
    intro map hbad
    obtain ⟨tok, hmem, _⟩ := hbad
    cases hmem
  | cons t rest ih =>
    intro map hbad
    cases haddr : (t.index ("address")).asStr with
    | none =>
      exact ⟨.decode ("token element has no address string"),
        by simp [insertTokens, haddr]⟩
    | some a =>
      cases hsym : (t.index ("symbol")).asStr with
      | none =>
        exact ⟨.decode ("token element has no symbol string"),
          by simp [insertTokens, haddr, hsym]⟩
      | some s =>
        obtain ⟨tok, hmem, hb⟩ := hbad
        rcases List.mem_cons.mp hmem with rfl | hmem2
        · rcases hb with hb | hb
          · rw [haddr] at hb; cases hb
          · rw [hsym] at hb; cases hb
        · obtain ⟨e, he⟩ := ih (map.insert a s) ⟨tok, hmem2, hb⟩
          exact ⟨e, by simp [insertTokens, haddr, hsym, he]⟩

/-- C3: for every run in which pages 1..k-1 decode successfully with
success=true, non-empty batches and hasNextPage=true, and page k decodes
successfully with success=true and an empty batch (its continuation flag
arbitrary), the stream requests exactly pages 1..k, yields exactly the
batches of pages 1..k-1 in order, and stops without yielding page k's
empty batch and without error. -/
theorem all_pools_stops_on_empty
    (fetch : Nat → FetchResult) (bs : Nat → List PoolInfoV3) (k fuel : Nat) (b : Bool)
    (hk : 1 ≤ k) (hfuel : k ≤ fuel)
    (hprev : ∀ j, 1 ≤ j → j < k → fetch j = .ok ⟨true, ⟨bs j, true⟩⟩ ∧ bs j ≠ [])
    (hlast : fetch k = .ok ⟨true, ⟨[], b⟩⟩) :
    all_pools fetch fuel =
      ((List.range' 1 (k - 1)).map bs, List.range' 1 k, RunEnd.stopped) := by
  obtain ⟨n, rfl⟩ : ∃ n, k = n + 1 := ⟨k - 1, by omega⟩
  simp only [Nat.add_sub_cancel]
  have hsplit : fuel = n + ((fuel - (n + 1)) + 1) := by omega
  rw [all_pools, hsplit,
    allPoolsFrom_through fetch bs n ((fuel - (n + 1)) + 1) 1
      (fun j hj1 hj2 => hprev j hj1 (by omega))]
  have h1n : 1 + n = n + 1 := by omega
  rw [h1n]
  simp [allPoolsFrom, hlast, List.range'_concat]
  omega

/-- C3 witness: a concrete two-page run (page 1 non-empty, page 2 empty)
yields exactly page 1's batch, requests pages 1 and 2, and stops. -/
theorem all_pools_stops_on_empty_witness :
    all_pools fetchC3 2 = ([[pool1]], [1, 2], RunEnd.stopped) :=
  all_pools_stops_on_empty fetchC3 (fun _ => [pool1]) 2 2 true (by omega) (by omega)
    (fun j hj1 hj2 => by
      have hj : j = 1 := by omega
      subst hj
      exact ⟨rfl, by simp⟩)
    rfl

/-- C4: for every run in which pages 1..k-1 decode successfully with
success=true, non-empty batches and hasNextPage=true, and page k decodes
successfully with success=true, a non-empty batch and hasNextPage=false,
the stream yields exactly the batches of pages 1..k in order (the final
non-empty batch is delivered before stopping) and the requested page
numbers are exactly 1, 2, ..., k: the counter starts at 1 and increments
by exactly 1 after each consumed page. -/
theorem all_pools_stops_on_flag
    (fetch : Nat → FetchResult) (bs : Nat → List PoolInfoV3) (k fuel : Nat)
    (hk : 1 ≤ k) (hfuel : k ≤ fuel)
    (hprev : ∀ j, 1 ≤ j → j < k → fetch j = .ok ⟨true, ⟨bs j, true⟩⟩ ∧ bs j ≠ [])
    (hlast : fetch k = .ok ⟨true, ⟨bs k, false⟩⟩) (hne : bs k ≠ []) :
    all_pools fetch fuel =
      ((List.range' 1 k).map bs, List.range' 1 k, RunEnd.stopped) := by
  obtain ⟨n, rfl⟩ : ∃ n, k = n + 1 := ⟨k - 1, by omega⟩
  have hsplit : fuel = n + ((fuel - (n + 1)) + 1) := by omega
  rw [all_pools, hsplit,
    allPoolsFrom_through fetch bs n ((fuel - (n + 1)) + 1) 1
      (fun j hj1 hj2 => hprev j hj1 (by omega))]
  have h1n : 1 + n = n + 1 := by omega
  rw [h1n]
  simp [allPoolsFrom, hlast, List.isEmpty_eq_false.mpr hne, List.range'_concat]
  exact ⟨by rw [h1n], by omega⟩

/-- C4 witness: a concrete two-page run (page 1 with hasNextPage=true,
page 2 non-empty with hasNextPage=false) yields both batches in order,
requests pages 1 and 2, and stops. -/
theorem all_pools_stops_on_flag_witness :
    all_pools fetchC4 2 = ([[pool1], [pool1Alt]], [1, 2], RunEnd.stopped) :=
  all_pools_stops_on_flag fetchC4 (fun j => if j = 1 then [pool1] else [pool1Alt]) 2 2
    (by omega) (by omega)
    (fun j hj1 hj2 => by
      have hj : j = 1 := by omega
      subst hj
      exact ⟨rfl, by simp⟩)
    rfl (by simp)

/-- C5: for every run in which pages 1..k-1 decode successfully with
success=true, non-empty batches and hasNextPage=true, and page k decodes
to an envelope whose success flag is false, the stream yields exactly
the batches of pages 1..k-1, never yields page k's batch nor anything
after it, and fails with the propagated upstream error (no retry, no
local recovery). -/
theorem all_pools_fail_fast_upstream
    (fetch : Nat → FetchResult) (bs : Nat → List PoolInfoV3) (k fuel : Nat)
    (page : ApiPage)
    (hk : 1 ≤ k) (hfuel : k ≤ fuel)
    (hprev : ∀ j, 1 ≤ j → j < k → fetch j = .ok ⟨true, ⟨bs j, true⟩⟩ ∧ bs j ≠ [])
    (hlast : fetch k = .ok page) (hfail : page.success = false) :
    all_pools fetch fuel =
      ((List.range' 1 (k - 1)).map bs, List.range' 1 k,
       RunEnd.failed (.upstream ("raydium returned success=false"))) := by
  obtain ⟨n, rfl⟩ : ∃ n, k = n + 1 := ⟨k - 1, by omega⟩
  simp only [Nat.add_sub_cancel]
  have hsplit : fuel = n + ((fuel - (n + 1)) + 1) := by omega
  rw [all_pools, hsplit,
    allPoolsFrom_through fetch bs n ((fuel - (n + 1)) + 1) 1
      (fun j hj1 hj2 => hprev j hj1 (by omega))]
  have h1n : 1 + n = n + 1 := by omega
  rw [h1n]
  simp [allPoolsFrom, hlast, hfail, List.range'_concat]
  omega

/-- C5 witness: a concrete run where page 2 reports success=false yields
only page 1's batch and fails with the upstream error. -/
theorem all_pools_fail_fast_upstream_witness :
    all_pools fetchC5 2 =
      ([[pool1]], [1, 2],
       RunEnd.failed (.upstream ("raydium returned success=false"))) :=
  all_pools_fail_fast_upstream fetchC5 (fun _ => [pool1]) 2 2
    ⟨false, ⟨[pool1Alt], true⟩⟩ (by omega) (by omega)
    (fun j hj1 hj2 => by
      have hj : j = 1 := by omega
      subst hj
      exact ⟨rfl, by simp⟩)
    rfl rfl

/-- C1: the written file has one row group of eight columns, every
column has exactly as many rows as the record collection, and the value
of every column at row i is the corresponding projection of record i
(identifier, program identifier, price, tvl, A-address, B-address,
A-label, B-label): no reordering, no dropped rows. -/
theorem write_pools_row_alignment (all : List PoolInfoV3) (tm : TokenMap)
    (i : Nat) (h : i < all.length) :
    (write_pools_parquet all tm).rowGroups.length = 1 ∧
    (∀ cols ∈ (write_pools_parquet all tm).rowGroups,
      cols.length = 8 ∧ ∀ c ∈ cols, c.length = all.length) ∧
    (write_pools_parquet all tm).cell 0 i = some (.s (all.get ⟨i, h⟩).id) ∧
    (write_pools_parquet all tm).cell 1 i = some (.s (all.get ⟨i, h⟩).program_id) ∧
    (write_pools_parquet all tm).cell 2 i = some (.f (all.get ⟨i, h⟩).price) ∧
    (write_pools_parquet all tm).cell 3 i = some (.f (all.get ⟨i, h⟩).tvl) ∧
    (write_pools_parquet all tm).cell 4 i = some (.s (all.get ⟨i, h⟩).mint_a.address) ∧
    (write_pools_parquet all tm).cell 5 i = some (.s (all.get ⟨i, h⟩).mint_b.address) ∧
    (write_pools_parquet all tm).cell 6 i =
      some (.s ((tm.get (all.get ⟨i, h⟩).mint_a.address).getD ("UNKNOWN"))) ∧
    (write_pools_parquet all tm).cell 7 i =
      some (.s ((tm.get (all.get ⟨i, h⟩).mint_b.address).getD ("UNKNOWN"))) := by
  refine ⟨rfl, ?_, ?_, ?_, ?_, ?_, ?_, ?_, ?_, ?_⟩
  · intro cols hcols
    simp only [write_pools_parquet, List.mem_singleton] at hcols
    subst hcols
    refine ⟨rfl, ?_⟩
    intro c hc
    fin_cases hc <;> simp [Col.length]
  all_goals
    simp [write_pools_parquet, ParquetFile.cell, ParquetFile.colAt, Col.entry,
      List.getElem?_map, List.getElem?_eq_getElem h]

/-- C1 witness: with one concrete record and map, the file has one row
group and row 0 of the identifier, price and A-address columns carries
that record's fields. -/
theorem write_pools_row_alignment_witness :
    (write_pools_parquet [pool1] tmEx).rowGroups.length = 1 ∧
    (write_pools_parquet [pool1] tmEx).cell 0 0 = some (.s ("pool1")) ∧
    (write_pools_parquet [pool1] tmEx).cell 2 0 = some (.f ⟨0x3FF0000000000000⟩) ∧
    (write_pools_parquet [pool1] tmEx).cell 4 0 = some (.s ("addrA")) := by
  have h := write_pools_row_alignment [pool1] tmEx 0 (by decide)
  exact ⟨h.1, h.2.2.1, h.2.2.2.2.1, h.2.2.2.2.2.2.1⟩

/-- C2: the A-label column value at row i is the mapped label of record
i's A-side address when that address is in the token map, and the
sentinel "UNKNOWN" when it is absent; the B-label column is computed
symmetrically; the projection is a total function, so a missing key
never fails the encoding step. -/
theorem write_pools_join_default (all : List PoolInfoV3) (tm : TokenMap)
    (i : Nat) (h : i < all.length) :
    ((write_pools_parquet all tm).cell 6 i =
      some (.s ((tm.get (all.get ⟨i, h⟩).mint_a.address).getD ("UNKNOWN")))) ∧
    ((write_pools_parquet all tm).cell 7 i =
      some (.s ((tm.get (all.get ⟨i, h⟩).mint_b.address).getD ("UNKNOWN")))) ∧
    (tm.get (all.get ⟨i, h⟩).mint_a.address = none →
      (write_pools_parquet all tm).cell 6 i = some (.s ("UNKNOWN"))) ∧
    (∀ s, tm.get (all.get ⟨i, h⟩).mint_a.address = some s →
      (write_pools_parquet all tm).cell 6 i = some (.s s)) ∧
    (tm.get (all.get ⟨i, h⟩).mint_b.address = none →
      (write_pools_parquet all tm).cell 7 i = some (.s ("UNKNOWN"))) ∧
    (∀ s, tm.get (all.get ⟨i, h⟩).mint_b.address = some s →
      (write_pools_parquet all tm).cell 7 i = some (.s s)) := by
  have h6 : (write_pools_parquet all tm).cell 6 i =
      some (.s ((tm.get (all.get ⟨i, h⟩).mint_a.address).getD ("UNKNOWN"))) := by
    simp [write_pools_parquet, ParquetFile.cell, ParquetFile.colAt, Col.entry,
      List.getElem?_map, List.getElem?_eq_getElem h]
  have h7 : (write_pools_parquet all tm).cell 7 i =
      some (.s ((tm.get (all.get ⟨i, h⟩).mint_b.address).getD ("UNKNOWN"))) := by
    simp [write_pools_parquet, ParquetFile.cell, ParquetFile.colAt, Col.entry,
      List.getElem?_map, List.getElem?_eq_getElem h]
  refine ⟨h6, h7, ?_, ?_, ?_, ?_⟩
  · intro hnone; rw [h6, hnone]; rfl
  · intro s hsome; rw [h6, hsome]; rfl
  · intro hnone; rw [h7, hnone]; rfl
  · intro s hsome; rw [h7, hsome]; rfl

/-- C2 witness: for a concrete record whose A-address is in the map and
whose B-address is not, the labels come out as the mapped symbol and the
sentinel respectively. -/
theorem write_pools_join_default_witness :
    (write_pools_parquet [pool1] tmEx).cell 6 0 = some (.s ("SOL")) ∧
    (write_pools_parquet [pool1] tmEx).cell 7 0 = some (.s ("UNKNOWN")) := by
  have h := write_pools_join_default [pool1] tmEx 0 (by decide)
  exact ⟨h.1, h.2.1⟩

/-- C6: during lookup loading, if any element of the tokens array is
missing its address string or its symbol string, the whole load fails
with an error (the Rust unwrap aborts there; modelled as a decode
error): the element is not skipped and no partial mapping is returned. -/
theorem load_token_map_fail_fast (resp : Json) (toks : List Json)
    (harr : resp.index ("tokens") = Json.arr toks)
    (hbad : ∃ tok ∈ toks,
      (tok.index ("address")).asStr = none ∨ (tok.index ("symbol")).asStr = none) :
    ∃ e, load_token_map resp = Except.error e := by
  obtain ⟨e, he⟩ := insertTokens_error_of_bad toks [] hbad
  exact ⟨e, by simp [load_token_map, harr, Json.asArray, he]⟩

/-- C6 witness: a concrete response whose single token element lacks a
symbol field makes the whole load fail. -/
theorem load_token_map_fail_fast_witness :
    ∃ e, load_token_map respBad = Except.error e :=
  load_token_map_fail_fast respBad [tokBad] rfl
    ⟨tokBad, List.mem_singleton.mpr rfl, Or.inr rfl⟩

/-- C7 counterexample: it is not true that every record accepted into
the accumulated collection has a non-empty identifier and a non-empty
program identifier: a successful run can deliver a record whose
identifier and program identifier are both empty, and nothing in the
pipeline rejects it. -/
theorem record_validation_cex :
    ¬ (∀ (fetch : Nat → FetchResult) (fuel : Nat)
        (batch : List PoolInfoV3) (r : PoolInfoV3),
        batch ∈ (all_pools fetch fuel).1 → r ∈ batch →
        r.id ≠ "" ∧ r.program_id ≠ "") := by
  intro hclaim
  have hmem : [poolEmptyId] ∈ (all_pools fetchCex 1).1 := by
    have hrun : (all_pools fetchCex 1).1 = [[poolEmptyId]] := rfl
    rw [hrun]
    exact List.mem_singleton.mpr rfl
  exact (hclaim fetchCex 1 [poolEmptyId] poolEmptyId hmem
    (List.mem_singleton.mpr rfl)).1 rfl

/-- C7 as amended: records are accepted into the accumulated collection
with no validation at all -- the identifier and program identifier may
be empty strings, and the numeric fields price and tvl are passed
through to the written columns bit for bit with no range validation
(NaN or negative bit patterns are not rejected anywhere). -/
theorem pipeline_no_validation (r : PoolInfoV3) (tm : TokenMap)
    (fetch : Nat → FetchResult)
    (hfetch : fetch 1 = .ok ⟨true, ⟨[r], false⟩⟩) :
    (all_pools fetch 1).1 = [[r]] ∧
    (all_pools fetch 1).2.2 = RunEnd.stopped ∧
    (write_pools_parquet [r] tm).cell 0 0 = some (.s r.id) ∧
    (write_pools_parquet [r] tm).cell 1 0 = some (.s r.program_id) ∧
    (write_pools_parquet [r] tm).cell 2 0 = some (.f r.price) ∧
    (write_pools_parquet [r] tm).cell 3 0 = some (.f r.tvl) := by
  have hrun : all_pools fetch 1 = ([[r]], [1], RunEnd.stopped) := by
    simp [all_pools, allPoolsFrom, hfetch]
  exact ⟨by rw [hrun], by rw [hrun], rfl, rfl, rfl, rfl⟩

/-- C7 amended witness: a record with empty identifier, empty program
identifier, a NaN price bit pattern and a negative-zero tvl bit pattern
is accepted and lands in the columns unchanged. -/
theorem pipeline_no_validation_witness :
    (all_pools fetchCex 1).1 = [[poolEmptyId]] ∧
    (all_pools fetchCex 1).2.2 = RunEnd.stopped ∧
    (write_pools_parquet [poolEmptyId] tmEx).cell 0 0 = some (.s ("")) ∧
    (write_pools_parquet [poolEmptyId] tmEx).cell 1 0 = some (.s ("")) ∧
    (write_pools_parquet [poolEmptyId] tmEx).cell 2 0 = some (.f ⟨0x7FF8000000000000⟩) ∧
    (write_pools_parquet [poolEmptyId] tmEx).cell 3 0 = some (.f ⟨0x8000000000000000⟩) :=
  pipeline_no_validation poolEmptyId tmEx fetchCex rfl

/-- C8: the schema is the fixed ordered list of eight named columns, all
non-nullable, six utf8 and two 64-bit float, and the file holds exactly
one row group containing one chunk with all eight columns. -/
theorem write_pools_schema (all : List PoolInfoV3) (tm : TokenMap) :
    (write_pools_parquet all tm).schema = [
      ⟨"id", ParquetType.utf8, false⟩,
      ⟨"program_id", ParquetType.utf8, false⟩,
      ⟨"price", ParquetType.float64, false⟩,
      ⟨"tvl", ParquetType.float64, false⟩,
      ⟨"coin_mint", ParquetType.utf8, false⟩,
      ⟨"pc_mint", ParquetType.utf8, false⟩,
      ⟨"symbol_a", ParquetType.utf8, false⟩,
      ⟨"symbol_b", ParquetType.utf8, false⟩] ∧
    ((write_pools_parquet all tm).schema.countP
      (fun fld => fld.dataType == ParquetType.utf8)) = 6 ∧
    ((write_pools_parquet all tm).schema.countP
      (fun fld => fld.dataType == ParquetType.float64)) = 2 ∧
    (∀ fld ∈ (write_pools_parquet all tm).schema, fld.nullable = false) ∧
    (write_pools_parquet all tm).rowGroups.length = 1 ∧
    (∀ cols ∈ (write_pools_parquet all tm).rowGroups, cols.length = 8) := by
  refine ⟨rfl, rfl, rfl, ?_, rfl, ?_⟩
  · intro fld hfld
    fin_cases hfld <;> rfl
  · intro cols hcols
    simp only [write_pools_parquet, List.mem_singleton] at hcols
    subst hcols
    rfl

/-- C9: the two label columns depend only on the records' A-side and
B-side addresses and on the token map: two collections of equal length
that agree on all mint addresses produce identical label columns, even
if every other field (symbol, name, decimals, tags, logo, extensions,
identifier, numerics) differs. -/
theorem labels_depend_only_on_addresses (all₁ all₂ : List PoolInfoV3) (tm : TokenMap)
    (hlen : all₁.length = all₂.length)
    (haddr : ∀ (i : Nat) (h₁ : i < all₁.length) (h₂ : i < all₂.length),
      (all₁.get ⟨i, h₁⟩).mint_a.address = (all₂.get ⟨i, h₂⟩).mint_a.address ∧
      (all₁.get ⟨i, h₁⟩).mint_b.address = (all₂.get ⟨i, h₂⟩).mint_b.address) :
    (write_pools_parquet all₁ tm).colAt 6 = (write_pools_parquet all₂ tm).colAt 6 ∧
    (write_pools_parquet all₁ tm).colAt 7 = (write_pools_parquet all₂ tm).colAt 7 := by
  have h6 : all₁.map (fun p => (tm.get p.mint_a.address).getD ("UNKNOWN")) =
      all₂.map (fun p => (tm.get p.mint_a.address).getD ("UNKNOWN")) := by
    apply List.ext_getElem (by simp [hlen])
    intro n h₁ h₂
    simp only [List.getElem_map]
    have ha := (haddr n (by simpa using h₁) (by simpa using h₂)).1
    simp only [List.get_eq_getElem] at ha
    rw [ha]
  have h7 : all₁.map (fun p => (tm.get p.mint_b.address).getD ("UNKNOWN")) =
      all₂.map (fun p => (tm.get p.mint_b.address).getD ("UNKNOWN")) := by
    apply List.ext_getElem (by simp [hlen])
    intro n h₁ h₂
    simp only [List.getElem_map]
    have hb := (haddr n (by simpa using h₁) (by simpa using h₂)).2
    simp only [List.get_eq_getElem] at hb
    rw [hb]
  constructor
  · simp [write_pools_parquet, ParquetFile.colAt, h6]
  · simp [write_pools_parquet, ParquetFile.colAt, h7]

/-- C9 witness: two one-record collections sharing mint addresses but
differing in identifier, numerics and every descriptive mint field get
identical label columns. -/
theorem labels_depend_only_on_addresses_witness :
    (write_pools_parquet [pool1] tmEx).colAt 6 =
      (write_pools_parquet [pool1Alt] tmEx).colAt 6 ∧
    (write_pools_parquet [pool1] tmEx).colAt 7 =
      (write_pools_parquet [pool1Alt] tmEx).colAt 7 :=
  labels_depend_only_on_addresses [pool1] [pool1Alt] tmEx rfl
    (fun i h₁ h₂ => by
      have hi : i = 0 := by simpa using h₁
      subst hi
      exact ⟨rfl, rfl⟩)

/-- C10: on the empty record collection the encoder still produces the
full eight-column schema, one row group with one eight-column chunk, the
fixed writer options and per-column encodings, and zero rows in every
column. -/
theorem write_pools_empty_collection (tm : TokenMap) :
    write_pools_parquet [] tm =
      ⟨[⟨"id", ParquetType.utf8, false⟩,
        ⟨"program_id", ParquetType.utf8, false⟩,
        ⟨"price", ParquetType.float64, false⟩,
        ⟨"tvl", ParquetType.float64, false⟩,
        ⟨"coin_mint", ParquetType.utf8, false⟩,
        ⟨"pc_mint", ParquetType.utf8, false⟩,
        ⟨"symbol_a", ParquetType.utf8, false⟩,
        ⟨"symbol_b", ParquetType.utf8, false⟩],
       [[Col.utf8 [], Col.utf8 [], Col.f64 [], Col.f64 [],
         Col.utf8 [], Col.utf8 [], Col.utf8 [], Col.utf8 []]],
       ⟨true, ParquetCompression.snappy, ParquetVersion.v2, some (1024 * 1024)⟩,
       [[ParquetEncoding.plain], [ParquetEncoding.plain], [ParquetEncoding.plain],
        [ParquetEncoding.plain], [ParquetEncoding.plain], [ParquetEncoding.plain],
        [ParquetEncoding.plain], [ParquetEncoding.plain]]⟩ ∧
    (∀ cols ∈ (write_pools_parquet [] tm).rowGroups, ∀ c ∈ cols, c.length = 0) := by
  refine ⟨rfl, ?_⟩
  intro cols hcols c hc
  simp only [write_pools_parquet, List.mem_singleton] at hcols
  subst hcols
  fin_cases hc <;> rfl

end Raydium

